import Mathlib

/-!
Shallow embedding of the AKE (authenticated key exchange) core of the otr3
repository (`src/ake.go`, plus `sendDHCommit` from the conversation layer).

Byte strings are modelled as `List Nat` (each entry a byte value).  Go
`*big.Int` values are modelled as `Nat` (all protocol integers are
non-negative).  Go methods that mutate the `AKE` context in place are
modelled as functions returning the updated context together with their
result.  The external cryptographic primitives (SHA-256, HMAC-SHA256,
AES-CTR, DSA sign/verify, public-key parsing) are Go standard-library or
repository code outside `src/`; the embedding is parametric in them via the
`CryptoPrims` structure, so every theorem holds for the real primitives.
-/

abbrev Bytes := List Nat

/-- Big-endian interpretation of a byte string (Go `big.Int.SetBytes`). -/
def bytesToNat (b : Bytes) : Nat :=
  b.foldl (fun a x => a * 256 + x) 0

/-- Fuel-driven helper for `natBytes` (structural recursion so the kernel
can evaluate it). -/
def natBytesFuel : Nat → Nat → Bytes
  | 0, _ => []
  | fuel + 1, n => if n = 0 then [] else natBytesFuel fuel (n / 256) ++ [n % 256]

/-- Minimal big-endian byte encoding of a natural number (Go
`big.Int.Bytes`); the encoding of `0` is empty. -/
def natBytes (n : Nat) : Bytes := natBytesFuel n n

/-- 4-byte big-endian encoding of a 32-bit word (Go `appendWord`'s payload;
a larger value is truncated modulo 2^32 exactly as Go's `uint32`
conversion does). -/
def word4 (w : Nat) : Bytes :=
  [w / 2 ^ 24 % 256, w / 2 ^ 16 % 256, w / 2 ^ 8 % 256, w % 256]

/-- Modelled from the spec: `appendWord` lives outside `src/`; it appends
the 4-byte big-endian encoding of a word to a buffer. -/
def appendWord (l : Bytes) (w : Nat) : Bytes := l ++ word4 w

/-- Modelled from the spec: `appendData` lives outside `src/`; it appends a
4-byte length prefix followed by the raw bytes (the DATA wire framing). -/
def appendData (l : Bytes) (d : Bytes) : Bytes := appendWord l d.length ++ d

/-- Modelled from the spec: `appendMPI` lives outside `src/`; it appends
the length-prefixed minimal big-endian encoding of an integer (the MPI
wire framing of §4.1 of the spec). -/
def appendMPI (l : Bytes) (n : Nat) : Bytes :=
  appendWord l (natBytes n).length ++ natBytes n

/-- Modelled from the spec: `extractWord` lives outside `src/`; it reads a
4-byte big-endian word, returning the remaining bytes, the word and an ok
flag (false when fewer than 4 bytes are available). -/
def extractWord (d : Bytes) : Bytes × Nat × Bool :=
  if d.length < 4 then ([], 0, false)
  else (d.drop 4, bytesToNat (d.take 4), true)

/-- Modelled from the spec: `extractMPI` lives outside `src/`; it reads a
length-prefixed integer, failing when the declared length exceeds the
available bytes (§4.1: `decodeMPI` fails on length mismatch). -/
def extractMPI (d : Bytes) : Bytes × Nat × Bool :=
  let e := extractWord d
  if e.2.2 = false ∨ e.1.length < e.2.1 then ([], 0, false)
  else (e.1.drop e.2.1, bytesToNat (e.1.take e.2.1), true)

/-- Modelled from the spec: `extractData` lives outside `src/`; it reads a
length-prefixed byte string, failing when the declared length exceeds the
available bytes. -/
def extractData (d : Bytes) : Bytes × Bytes × Bool :=
  let e := extractWord d
  if e.2.2 = false ∨ e.1.length < e.2.1 then ([], [], false)
  else (e.1.drop e.2.1, e.1.take e.2.1, true)

/-- The 1536-bit MODP prime (RFC 3526 group 5) used as the protocol DH
modulus `p`. -/
def p : Nat :=
  0xFFFFFFFFFFFFFFFFC90FDAA22168C234C4C6628B80DC1CD129024E088A67CC74020BBEA63B139B22514A08798E3404DDEF9519B3CD3A431B302B0A6DF25F14374FE1356D6D51C245E485B576625E7EC6F44C42E9A637ED6B0BFF5CB6F406B7EDEE386BFB5A899FA5AE9F24117C4B1FE649286651ECE45B3DC2007CB8A163BF0598DA48361C55D39A69163FA8FD24CF5F83655D23DCA3AD961C62F356208552BB9ED529077096966D670C354E4ABC9804F1746C08CA237327FFFFFFFFFFFFFFFF

/-- The protocol DH generator `g1 = 2`. -/
def g1 : Nat := 2

/-- `p - 2`, the upper bound for valid DH public values. -/
def pMinusTwo : Nat := p - 2

/-- `modExp(base, exp)` is modular exponentiation modulo the protocol
prime (Go `big.Int.Exp(base, exp, p)`). -/
def modExp (base exp : Nat) : Nat := base ^ exp % p

/-- Go `subtle.ConstantTimeCompare`, modelled by its input/output contract:
returns 1 when the two byte strings are equal (same length, same
contents) and 0 otherwise. -/
def constantTimeCompare (a b : Bytes) : Nat := if a = b then 1 else 0

/-- The error values surfaced by the AKE.  `msg s` models a Go
`errors.New(s)` with the given text; the named constructors model the
predeclared error variables of the repository. -/
inductive OtrError where
  | shortRandomRead
  | invalidOTRMessage
  | corruptEncryptedSignature
  | keySize
  | msg (s : String)
deriving DecidableEq, Repr

/-- The user-facing text of an error (Go `error.Error()`); the texts of the
predeclared errors live outside `src/` and only the `msg` case matters to
the theorems below. -/
def OtrError.message : OtrError → String
  | .shortRandomRead => "otr: short read from random source"
  | .invalidOTRMessage => "otr: invalid OTR message"
  | .corruptEncryptedSignature => "otr: corrupt encrypted signature"
  | .keySize => "crypto/aes: invalid key size"
  | .msg s => s

/-- Modelled from the spec: `newOtrError` lives outside `src/`; it builds
an error with an `otr: ` prefix on the given text. -/
def newOtrError (s : String) : OtrError := .msg ("otr: " ++ s)

deriving instance DecidableEq for Except

/-- A long-term public key; `raw` is its wire serialization
(`PublicKey.serialize` in the repository returns exactly these bytes). -/
structure PublicKey where
  raw : Bytes
deriving DecidableEq, Repr

def PublicKey.serialize (k : PublicKey) : Bytes := k.raw

/-- A long-term key pair (`PrivateKey` embeds the public part in Go). -/
structure PrivateKey where
  pub : PublicKey
  priv : Bytes
deriving DecidableEq, Repr

/-- The external cryptographic primitives consumed by the AKE (Go standard
library and repository code outside `src/`), abstracted by their
interfaces (§4.2 and §6 of the spec).  Every theorem below is universally
quantified over this structure, so it holds for the real primitives. -/
structure CryptoPrims where
  /-- SHA-256: 32-byte digest of a byte string. -/
  sha256 : Bytes → Bytes
  /-- HMAC-SHA256: `hmac key data` is the 32-byte keyed MAC tag. -/
  hmac : Bytes → Bytes → Bytes
  /-- AES-CTR keystream XOR with zero IV: `ctr key data`; it is its own
  inverse and length-preserving for the real primitive. -/
  ctr : Bytes → Bytes → Bytes
  /-- DSA signing with the long-term private key; `none` models a short
  read from the randomness the signer consumes (`io.ErrUnexpectedEOF`). -/
  sign : Bytes → Bytes → Option Bytes
  /-- DSA verification of a fixed-size signature against a digest. -/
  dsaVerify : PublicKey → Bytes → Bytes → Bool
  /-- `PublicKey.parse`: reads a serialized public key off the front of a
  buffer, returning the key, the remaining bytes and an ok flag. -/
  parsePub : Bytes → PublicKey × Bytes × Bool

/-- Modelled from the spec: `encrypt` lives outside `src/`; AES-CTR with
zero IV; `aes.NewCipher` rejects keys that are not 16, 24 or 32 bytes. -/
def encrypt (P : CryptoPrims) (key data : Bytes) : Except OtrError Bytes :=
  if key.length = 16 ∨ key.length = 24 ∨ key.length = 32 then .ok (P.ctr key data)
  else .error .keySize

/-- Modelled from the spec: `decrypt` lives outside `src/`; CTR decryption
is the same keystream XOR as encryption (§4.2: one reversible transform). -/
def decrypt (P : CryptoPrims) (key src : Bytes) : Except OtrError Bytes :=
  if key.length = 16 ∨ key.length = 24 ∨ key.length = 32 then .ok (P.ctr key src)
  else .error .keySize

/-- An AKE key bundle: one AES key `c` and two MAC keys `m1`, `m2`. -/
structure akeKeys where
  c : Bytes
  m1 : Bytes
  m2 : Bytes
deriving DecidableEq, Repr

/-- Modelled from the spec: `calculateAKEKeys` lives outside `src/`; the
KDF (§4.3) hashes the MPI encoding of the shared secret under distinct
one-byte counters into the ssid and the two key bundles. -/
def calculateAKEKeys (P : CryptoPrims) (s : Nat) : Bytes × akeKeys × akeKeys :=
  let secbytes := appendMPI [] s
  let h := fun (b : Nat) => P.sha256 (b :: secbytes)
  let ssid := (h 0).take 8
  let cFull := h 1
  (ssid,
   ⟨cFull.take 16, h 2, h 3⟩,
   ⟨(cFull.drop 16).take 16, h 4, h 5⟩)

/-- The AKE context (`AKE` embedding `akeContext` in `src/ake.go`).  The
`randSource` field models the stream of bytes the injected random source
will produce; `headerBytes` models `ake.messageHeader()`, the fixed
transport-owned header whose length is `ake.headerLen()`. -/
structure AKE where
  secretExponent : Option Nat
  ourPublicValue : Option Nat
  theirPublicValue : Option Nat
  r : Bytes
  encryptedGx : Bytes
  hashedGx : Bytes
  ourKeyID : Nat
  theirKeyID : Nat
  ourKey : PrivateKey
  theirKey : Option PublicKey
  ssid : Bytes
  revealKey : akeKeys
  sigKey : akeKeys
  randSource : Bytes
  headerBytes : Bytes
deriving DecidableEq, Repr

/-- `ake.headerLen()`: the fixed header length of the negotiated version. -/
def AKE.headerLen (ake : AKE) : Nat := ake.headerBytes.length

/-- `setSecretExponent` (`src/ake.go:33`): stores the ephemeral exponent
and the derived public value `g1^val mod p` together. -/
def setSecretExponent (ake : AKE) (val : Nat) : AKE :=
  { ake with secretExponent := some val, ourPublicValue := some (modExp g1 val) }

/-- `calcDHSharedSecret` (`src/ake.go:38`): `theirPublicValue ^
secretExponent mod p`.  Both fields are set on every path that reaches
this computation; the `getD 0` default models the Go nil dereference that
those paths never perform. -/
def calcDHSharedSecret (ake : AKE) : Nat :=
  modExp (ake.theirPublicValue.getD 0) (ake.secretExponent.getD 0)

/-- `calcAKEKeys` (`src/ake.go:29`): derives and stores ssid and the two
key bundles from the shared secret. -/
def calcAKEKeys (P : CryptoPrims) (ake : AKE) (s : Nat) : AKE :=
  let out := calculateAKEKeys P s
  { ake with ssid := out.1, revealKey := out.2.1, sigKey := out.2.2 }

/-- Modelled from the spec: `randMPI` lives outside `src/`; it fills an
`n`-byte buffer from the random source (a short read is a hard failure,
§6) and interprets it big-endian. -/
def randMPI (ake : AKE) (n : Nat) : AKE × Option Nat :=
  if ake.randSource.length < n then ({ ake with randSource := [] }, none)
  else ({ ake with randSource := ake.randSource.drop n },
        some (bytesToNat (ake.randSource.take n)))

/-- The partial fill `io.ReadFull` performs on `ake.r` when the random
source runs dry before 16 bytes are produced. -/
def readFullFail (ake : AKE) : AKE :=
  { ake with r := ake.randSource ++ ake.r.drop ake.randSource.length,
             randSource := [] }

/-! ## Wire messages (serialization modelled from the spec, §4.4) -/

/-- The deserialized RevealSignature message body. -/
structure revealSigMsg where
  r : Bytes
  encryptedSig : Bytes
  macSig : Bytes
deriving DecidableEq, Repr

/-- Modelled from the spec: `dhCommit.serialize` lives outside `src/`; the
Commit body is DATA(encryptedGx) followed by DATA(SHA256(MPI(gx))),
after the fixed header (§4.5 Send Commit). -/
def serializeDHCommitMsg (P : CryptoPrims) (header : Bytes) (gx : Nat)
    (encryptedGx : Bytes) : Bytes :=
  appendData (appendData header encryptedGx) (P.sha256 (appendMPI [] gx))

/-- Modelled from the spec: `dhKey.serialize` lives outside `src/`; the
Key body is MPI(gy) after the fixed header. -/
def serializeDHKeyMsg (header : Bytes) (gy : Nat) : Bytes :=
  appendMPI header gy

/-- Modelled from the spec: `revealSig.serialize` lives outside `src/`;
the body is DATA(r), the already-DATA-framed encrypted signature, and the
MAC tag truncated to 20 bytes (§4.4: truncated per legacy wire
compatibility). -/
def serializeRevealSigMsg (header r encryptedSig macSig : Bytes) : Bytes :=
  appendData header r ++ encryptedSig ++ macSig.take 20

/-- Modelled from the spec: `sig.serialize` lives outside `src/`; the body
is the already-DATA-framed encrypted signature and the 20-byte MAC tag. -/
def serializeSigMsg (header encryptedSig macSig : Bytes) : Bytes :=
  header ++ encryptedSig ++ macSig.take 20

/-- Modelled from the spec: `dhCommit.deserialize` lives outside `src/`;
reads DATA(encryptedGx) and DATA(hashedGx), rejecting malformed framing
and trailing bytes (§4.4 strict length validation). -/
def dhCommitDeserialize (msg : Bytes) : Except OtrError (Bytes × Bytes) :=
  let e1 := extractData msg
  let e2 := extractData e1.1
  if e1.2.2 = false ∨ e2.2.2 = false ∨ e2.1.length ≠ 0 then .error .invalidOTRMessage
  else .ok (e1.2.1, e2.2.1)

/-- Modelled from the spec: `dhKey.deserialize` lives outside `src/`;
reads MPI(gy) and rejects a value outside `[2, p-2]` unconditionally
(§3: values outside this range are rejected even if the commitment hash
matches), then rejects trailing bytes. -/
def dhKeyDeserialize (msg : Bytes) : Except OtrError Nat :=
  let e := extractMPI msg
  if e.2.2 = false then .error .invalidOTRMessage
  else if e.2.1 < g1 ∨ e.2.1 > pMinusTwo then .error (.msg "otr: DH value out of range")
  else if e.1.length ≠ 0 then .error .invalidOTRMessage
  else .ok e.2.1

/-- Modelled from the spec: `revealSig.deserialize` lives outside `src/`;
reads DATA(r) (16 bytes), DATA(encryptedSig) and the trailing 20-byte MAC
tag, with strict length validation. -/
def revealSigDeserialize (msg : Bytes) : Except OtrError revealSigMsg :=
  let e1 := extractData msg
  let e2 := extractData e1.1
  if e1.2.2 = false ∨ e2.2.2 = false ∨ e1.2.1.length ≠ 16 ∨ e2.1.length ≠ 20 then
    .error .invalidOTRMessage
  else .ok ⟨e1.2.1, e2.2.1, e2.1⟩

/-- Modelled from the spec: `sig.deserialize` lives outside `src/`; reads
DATA(encryptedSig) and the trailing 20-byte MAC tag.  Returns the pair
(encryptedSig, macSig). -/
def sigDeserialize (msg : Bytes) : Except OtrError (Bytes × Bytes) :=
  let e := extractData msg
  if e.2.2 = false ∨ e.1.length ≠ 20 then .error .invalidOTRMessage
  else .ok (e.2.1, e.1)

/-! ## AKE operations (`src/ake.go`) -/

/-- `ensureValidMessage` (`src/ake.go:249`): rejects a message shorter
than the fixed header and strips the header. -/
def ensureValidMessage (ake : AKE) (msg : Bytes) : Except OtrError Bytes :=
  if msg.length < ake.headerLen then .error .invalidOTRMessage
  else .ok (msg.drop ake.headerLen)

/-- `appendAll` (`src/ake.go:54`). -/
def appendAll (one two : Nat) (publicKey : PublicKey) (keyID : Nat) : Bytes :=
  appendWord (appendMPI (appendMPI [] one) two ++ publicKey.serialize) keyID

/-- `calcXb` (`src/ake.go:58`): serialized public key, keyID and the
signature over `mb`, all encrypted under `key.c` (the AES key from the
KDF is always 16 bytes, so `aes.NewCipher` cannot fail there, as the
source comment notes). -/
def calcXb (P : CryptoPrims) (ake : AKE) (key : akeKeys) (mb : Bytes) :
    Except OtrError Bytes :=
  match P.sign ake.ourKey.priv mb with
  | none => .error .shortRandomRead
  | some sigb =>
    let xb := appendWord ake.ourKey.pub.serialize ake.ourKeyID ++ sigb
    .ok (P.ctr key.c xb)

/-- `generateEncryptedSignature` (`src/ake.go:42`). -/
def generateEncryptedSignature (P : CryptoPrims) (ake : AKE) (key : akeKeys) :
    Except OtrError Bytes :=
  let verifyData := appendAll (ake.ourPublicValue.getD 0)
    (ake.theirPublicValue.getD 0) ake.ourKey.pub ake.ourKeyID
  let mb := P.hmac key.m1 verifyData
  match calcXb P ake key mb with
  | .error e => .error e
  | .ok xb => .ok (appendData [] xb)

/-- `dhCommitMessage` (`src/ake.go:83`): generate the ephemeral exponent
(40 random bytes), the commitment key `r` (16 random bytes), encrypt our
public value and serialize the Commit message. -/
def dhCommitMessage (P : CryptoPrims) (ake : AKE) : AKE × Except OtrError Bytes :=
  let ake1 := { ake with ourKeyID := 0 }
  let rm := randMPI ake1 40
  match rm.2 with
  | none => (rm.1, .error .shortRandomRead)
  | some x =>
    let ake2 := rm.1
    let ake3 := setSecretExponent ake2 x
    if ake3.randSource.length < 16 then
      (readFullFail ake3, .error .shortRandomRead)
    else
      let ake4 := { ake3 with r := ake3.randSource.take 16,
                              randSource := ake3.randSource.drop 16 }
      let encGx := match encrypt P ake4.r (appendMPI [] (ake4.ourPublicValue.getD 0)) with
        | .ok d => d
        | .error _ => []
      let ake5 := { ake4 with encryptedGx := encGx }
      (ake5, .ok (serializeDHCommitMsg P ake5.headerBytes
        (ake5.ourPublicValue.getD 0) ake5.encryptedGx))

/-- `dhKeyMessage` (`src/ake.go:119`): generate the ephemeral exponent
(40 random bytes) and serialize the Key message. -/
def dhKeyMessage (ake : AKE) : AKE × Except OtrError Bytes :=
  let rm := randMPI ake 40
  match rm.2 with
  | none => (rm.1, .error .shortRandomRead)
  | some y =>
    let ake2 := rm.1
    let ake3 := setSecretExponent ake2 y
    (ake3, .ok (serializeDHKeyMsg ake3.headerBytes (ake3.ourPublicValue.getD 0)))

/-- `revealSigMessage` (`src/ake.go:141`). -/
def revealSigMessage (P : CryptoPrims) (ake : AKE) : AKE × Except OtrError Bytes :=
  let ake1 := calcAKEKeys P ake (calcDHSharedSecret ake)
  match generateEncryptedSignature P ake1 ake1.revealKey with
  | .error e => (ake1, .error e)
  | .ok encryptedSig =>
    let macSig := P.hmac ake1.revealKey.m2 encryptedSig
    (ake1, .ok (serializeRevealSigMsg ake1.headerBytes ake1.r encryptedSig macSig))

/-- `sigMessage` (`src/ake.go:160`). -/
def sigMessage (P : CryptoPrims) (ake : AKE) : AKE × Except OtrError Bytes :=
  let ake1 := calcAKEKeys P ake (calcDHSharedSecret ake)
  match generateEncryptedSignature P ake1 ake1.sigKey with
  | .error e => (ake1, .error e)
  | .ok encryptedSig =>
    let macSig := P.hmac ake1.sigKey.m2 encryptedSig
    (ake1, .ok (serializeSigMsg ake1.headerBytes encryptedSig macSig))

/-- `checkDecryptedGx` (`src/ake.go:339`): constant-time comparison of the
SHA-256 digest of the decrypted commitment against the stored hash. -/
def checkDecryptedGx (P : CryptoPrims) (decryptedGx hashedGx : Bytes) :
    Option OtrError :=
  if constantTimeCompare (P.sha256 decryptedGx) hashedGx = 0 then
    some (.msg "otr: bad commit MAC in reveal signature message")
  else none

/-- `extractGx` (`src/ake.go:316`): decode the revealed MPI, rejecting
trailing bytes and any value outside `[2, p-2]`. -/
def extractGx (decryptedGx : Bytes) : Except OtrError Nat :=
  let (newData, gx, ok) := extractMPI decryptedGx
  if ok = false ∨ newData.length > 0 then .error (.msg "otr: gx corrupt after decryption")
  else if gx < g1 ∨ gx > pMinusTwo then .error (.msg "otr: DH value out of range")
  else .ok gx

/-- Modelled from the spec: `PublicKey.verify` lives outside `src/`; it
consumes a fixed-size (40-byte) DSA signature off the front of `sig`,
returning the remaining bytes and the verification verdict; too few bytes
verify as false (§6: `verify(data, signature) -> bool`). -/
def pubVerify (P : CryptoPrims) (k : PublicKey) (hashed sig : Bytes) :
    Bytes × Bool :=
  if sig.length < 40 then ([], false)
  else (sig.drop 40, P.dsaVerify k hashed (sig.take 40))

/-- `processEncryptedSig` (`src/ake.go:274`): verify the truncated MAC tag
(constant-time), decrypt, parse the embedded public key, keyID and
signature, verify the signature and reject trailing bytes. -/
def processEncryptedSig (P : CryptoPrims) (ake : AKE)
    (encryptedSig theirMAC : Bytes) (keys : akeKeys) : AKE × Option OtrError :=
  let tomac := appendData [] encryptedSig
  let myMAC := (P.hmac keys.m2 tomac).take 20
  if myMAC.length ≠ theirMAC.length ∨ constantTimeCompare myMAC theirMAC = 0 then
    (ake, some (.msg "bad signature MAC in encrypted signature"))
  else
    match decrypt P keys.c encryptedSig with
    | .error e => (ake, some e)
    | .ok decryptedSig =>
      let out := P.parsePub decryptedSig
      let k := out.1
      let nextPoint := out.2.1
      let ok1 := out.2.2
      let ake1 := { ake with theirKey := some k }
      let ow := extractWord nextPoint
      let keyID := ow.2.1
      let ok2 := ow.2.2
      if ok1 = false ∨ ok2 = false ∨ nextPoint.length < 4 then
        (ake1, some .corruptEncryptedSignature)
      else
        let sig := nextPoint.drop 4
        let verifyData := appendAll (ake1.theirPublicValue.getD 0)
          (ake1.ourPublicValue.getD 0) k keyID
        let mb := P.hmac keys.m1 verifyData
        let vr := pubVerify P k mb sig
        if vr.2 = false then
          (ake1, some (.msg "bad signature in encrypted signature"))
        else if vr.1.length > 0 then
          (ake1, some .corruptEncryptedSignature)
        else
          ({ ake1 with theirKeyID := keyID }, none)

/-- `processDHCommit` (`src/ake.go:178`): store the commitment pair. -/
def processDHCommit (ake : AKE) (msg : Bytes) : AKE × Option OtrError :=
  match ensureValidMessage ake msg with
  | .error e => (ake, some e)
  | .ok body =>
    match dhCommitDeserialize body with
    | .error e => (ake, some e)
    | .ok out => ({ ake with encryptedGx := out.1, hashedGx := out.2 }, none)

/-- `processDHKey` (`src/ake.go:191`): keep only the first `gy`; a second
Key message is compared for equality without mutation. -/
def processDHKey (ake : AKE) (msg : Bytes) : AKE × Bool × Option OtrError :=
  match ensureValidMessage ake msg with
  | .error e => (ake, false, some e)
  | .ok body =>
    match dhKeyDeserialize body with
    | .error e => (ake, false, some e)
    | .ok gy =>
      match ake.theirPublicValue with
      | some t => (ake, decide (t = gy), none)
      | none => ({ ake with theirPublicValue := some gy }, false, none)

/-- `processRevealSig` (`src/ake.go:210`): decrypt the stored commitment
with the revealed `r`, check it against the stored hash, range-validate
the revealed `gx`, derive keys and verify the encrypted signature. -/
def processRevealSig (P : CryptoPrims) (ake : AKE) (msg : Bytes) :
    AKE × Option OtrError :=
  match ensureValidMessage ake msg with
  | .error e => (ake, some e)
  | .ok body =>
  match revealSigDeserialize body with
  | .error e => (ake, some e)
  | .ok rsm =>
  match decrypt P rsm.r ake.encryptedGx with
  | .error e => (ake, some e)
  | .ok decryptedGx =>
  match checkDecryptedGx P decryptedGx ake.hashedGx with
  | some e => (ake, some e)
  | none =>
  match extractGx decryptedGx with
  | .error e => (ake, some e)
  | .ok tempgx =>
  let ake1 := { ake with theirPublicValue := some tempgx }
  let ake2 := calcAKEKeys P ake1 (calcDHSharedSecret ake1)
  let out := processEncryptedSig P ake2 rsm.encryptedSig rsm.macSig ake2.revealKey
  match out.2 with
  | some e => (out.1, some (newOtrError ("in reveal signature message: " ++ e.message)))
  | none => (out.1, none)

/-- `processSig` (`src/ake.go:258`). -/
def processSig (P : CryptoPrims) (ake : AKE) (msg : Bytes) : AKE × Option OtrError :=
  match ensureValidMessage ake msg with
  | .error e => (ake, some e)
  | .ok body =>
  match sigDeserialize body with
  | .error e => (ake, some e)
  | .ok sm =>
  let out := processEncryptedSig P ake sm.1 sm.2 ake.sigKey
  match out.2 with
  | some e => (out.1, some (.msg ("otr: in signature message: " ++ e.message)))
  | none => (out.1, none)

/-! ## Conversation layer (`src/unnamed/part_000`) -/

/-- The AKE authentication state (`c.ake.state`); the conversation layer
sets it to `awaitingDHKey` after sending a Commit message. -/
inductive authState where
  | stateNone
  | awaitingDHKey
  | awaitingRevealSig
  | awaitingSig
deriving DecidableEq, Repr

/-- Modelled from the spec: `keyManagementContext` is defined outside
`src/`.  It is modelled with representative fields, each carrying the Go
zero value as its default, plus the `oldMACKeys` list that `sendDHCommit`
carries over; the composite literal `keyManagementContext{oldMACKeys: ...}`
in the source zero-fills every other field. -/
structure keyManagementContext where
  ourKeyID : Nat := 0
  theirKeyID : Nat := 0
  ourCurrentDHPubKey : Nat := 0
  ourPreviousDHPubKey : Nat := 0
  theirCurrentDHPubKey : Nat := 0
  ourCounter : Nat := 0
  theirCounter : Nat := 0
  macKeyHistory : List Bytes := []
  oldMACKeys : List Bytes := []
deriving DecidableEq, Repr

/-- The slice of the `Conversation` that `sendDHCommit` touches: the AKE
context, the AKE auth state and the key-management context. -/
structure Conversation where
  ake : AKE
  akeState : authState
  keys : keyManagementContext
deriving DecidableEq, Repr

/-- `msgTypeDHCommit` (`src/ake.go:16`). -/
def msgTypeDHCommit : Nat := 2

/-- Modelled from the spec: `wrapMessageHeader` lives outside `src/`; the
transport layer prepends its fixed header (version, message-type byte,
instance tags) to an encoded message (§6). -/
def wrapMessageHeader (c : Conversation) (t : Nat) (m : Bytes) :
    Except OtrError Bytes :=
  .ok (c.ake.headerBytes ++ [t] ++ m)

/-- `sendDHCommit` (`src/unnamed/part_000:49`): build and wrap the Commit
message; on success move the AKE state to `awaitingDHKey` and replace the
key-management context with a fresh one that keeps only `oldMACKeys`. -/
def sendDHCommit (P : CryptoPrims) (c : Conversation) :
    Conversation × Except OtrError Bytes :=
  let out := dhCommitMessage P c.ake
  let c1 := { c with ake := out.1 }
  match out.2 with
  | .error e => (c1, .error e)
  | .ok toSend =>
    match wrapMessageHeader c1 msgTypeDHCommit toSend with
    | .error e => (c1, .error e)
    | .ok wrapped =>
      ({ c1 with akeState := .awaitingDHKey,
                 keys := { oldMACKeys := c1.keys.oldMACKeys } }, .ok wrapped)

/-! ## Derived notions used by the claims -/

/-- The invariant of claim C8: `secretExponent` and `ourPublicValue` are
both unset or both set, and when set the public value is `g1 ^
secretExponent mod p`. -/
def dhInvariant (ake : AKE) : Bool :=
  match ake.secretExponent, ake.ourPublicValue with
  | none, none => true
  | some x, some y => decide (y = modExp g1 x)
  | _, _ => false

/-- `Except.isOk` specialised to the error type of the embedding. -/
def isOkE {α : Type} : Except OtrError α → Bool
  | .ok _ => true
  | .error _ => false

/-! ## Concrete primitive instances used by witnesses.  They satisfy the
interface facts (fixed-size digests, length-preserving stream cipher)
that the theorems assume about the real primitives. -/

/-- A toy 32-byte digest function used to instantiate witnesses. -/
def toySha (d : Bytes) : Bytes := (d ++ List.replicate 32 0).take 32

/-- A toy 32-byte keyed MAC used to instantiate witnesses. -/
def toyHmac (k d : Bytes) : Bytes := (k ++ d ++ List.replicate 32 1).take 32

/-- A concrete `CryptoPrims` instance whose signature verification always
succeeds; used to instantiate witnesses. -/
def toyPrims : CryptoPrims where
  sha256 := toySha
  hmac := toyHmac
  ctr := fun _ d => d
  sign := fun _ _ => some (List.replicate 40 2)
  dsaVerify := fun _ _ _ => true
  parsePub := fun b => (⟨b.take 3⟩, b.drop 3, true)

/-- A concrete `CryptoPrims` instance whose signature verification always
fails; used to instantiate witnesses and the counterexample. -/
def toyPrimsReject : CryptoPrims where
  sha256 := toySha
  hmac := toyHmac
  ctr := fun _ d => d
  sign := fun _ _ => some (List.replicate 40 2)
  dsaVerify := fun _ _ _ => false
  parsePub := fun b => (⟨b.take 3⟩, b.drop 3, true)

/-- A base AKE context for witnesses: every optional field unset, every
buffer empty, a 16-byte commitment key slot. -/
def akeBase : AKE where
  secretExponent := none
  ourPublicValue := none
  theirPublicValue := none
  r := List.replicate 16 0
  encryptedGx := []
  hashedGx := []
  ourKeyID := 0
  theirKeyID := 0
  ourKey := ⟨⟨[1, 2, 3]⟩, [9]⟩
  theirKey := none
  ssid := []
  revealKey := ⟨List.replicate 16 0, List.replicate 32 0, List.replicate 32 0⟩
  sigKey := ⟨List.replicate 16 0, List.replicate 32 0, List.replicate 32 0⟩
  randSource := []
  headerBytes := []

/-! ## Helper lemmas about the wire framing -/

theorem word4_length (n : Nat) : (word4 n).length = 4 := rfl

theorem bytesToNat_word4 (n : Nat) (h : n < 2 ^ 32) : bytesToNat (word4 n) = n := by
  simp [bytesToNat, word4]
  omega

theorem extractWord_word4 (n : Nat) (rest : Bytes) :
    extractWord (word4 n ++ rest) = (rest, bytesToNat (word4 n), true) := by
  simp [extractWord, word4]

theorem extractData_encode (d rest : Bytes) (h : d.length < 2 ^ 32) :
    extractData (appendData [] d ++ rest) = (rest, d, true) := by
  have he : appendData [] d ++ rest = word4 d.length ++ (d ++ rest) := by
    simp [appendData, appendWord]
  rw [he]
  simp only [extractData, extractWord_word4, bytesToNat_word4 _ h]
  have hlen : ¬ (d ++ rest).length < d.length := by
    simp [List.length_append]
  simp only [hlen]
  simp [List.take_left, List.drop_left]

/-! ## Claim C3 -/

/-- Claim C3: when `theirPublicValue` is already set, `processDHKey` on a
well-formed DHKey message leaves the whole context unchanged and returns
`isSame` true exactly when the incoming `gy` equals the stored value,
with no error even when they differ; when it is not yet set, the incoming
`gy` is stored. -/
theorem processDHKey_keeps_first_gy (ake : AKE) (msg : Bytes) (gy : Nat)
    (hlen : ¬ msg.length < ake.headerLen)
    (hde : dhKeyDeserialize (msg.drop ake.headerLen) = .ok gy) :
    (∀ t, ake.theirPublicValue = some t →
      processDHKey ake msg = (ake, decide (t = gy), none)) ∧
    (ake.theirPublicValue = none →
      processDHKey ake msg = ({ ake with theirPublicValue := some gy }, false, none)) := by
  unfold processDHKey ensureValidMessage
  rw [if_neg hlen]
  simp only [hde]
  constructor
  · intro t ht
    simp [ht]
  · intro ht
    simp [ht]

/-- Witness for C3: a context that already accepted `gy = 5` processes a
retransmitted Key message carrying 5 without mutation and reports
`isSame = true` with no error. -/
theorem processDHKey_keeps_first_gy_witness :
    processDHKey { akeBase with theirPublicValue := some 5 } [0, 0, 0, 1, 5] =
      ({ akeBase with theirPublicValue := some 5 }, true, none) :=
  (processDHKey_keeps_first_gy { akeBase with theirPublicValue := some 5 }
    [0, 0, 0, 1, 5] 5 (by decide) (by decide)).1 5 rfl

/-! ## Claim C6 -/

/-- Claim C6: `dhCommitMessage` and `dhKeyMessage` fail with the
short-random-read error and emit no message whenever the random source
yields fewer bytes than requested (40 for the exponent, then 16 for `r`);
a short read is never padded or silently accepted. -/
theorem shortRandomIsHardFailure (P : CryptoPrims) (ake : AKE) :
    (ake.randSource.length < 56 →
      (dhCommitMessage P ake).2 = .error .shortRandomRead) ∧
    (ake.randSource.length < 40 →
      (dhKeyMessage ake).2 = .error .shortRandomRead) := by
  constructor
  · intro h
    by_cases h40 : ake.randSource.length < 40
    · simp [dhCommitMessage, randMPI, h40]
    · have h16 : (ake.randSource.drop 40).length < 16 := by
        simp [List.length_drop]
        omega
      simp [dhCommitMessage, randMPI, h40, setSecretExponent, h16]
      rw [if_pos (by omega)]
  · intro h
    simp [dhKeyMessage, randMPI, h]

/-- Witness for C6: with an empty random source both message builders
fail with the short-random-read error. -/
theorem shortRandomIsHardFailure_witness :
    (dhCommitMessage toyPrims akeBase).2 = .error .shortRandomRead ∧
    (dhKeyMessage akeBase).2 = .error .shortRandomRead :=
  ⟨(shortRandomIsHardFailure toyPrims akeBase).1 (by decide),
   (shortRandomIsHardFailure toyPrims akeBase).2 (by decide)⟩

/-! ## Claim C8 -/

theorem dhInvariant_eq_of (a b : AKE) (h1 : b.secretExponent = a.secretExponent)
    (h2 : b.ourPublicValue = a.ourPublicValue) : dhInvariant b = dhInvariant a := by
  unfold dhInvariant
  rw [h1, h2]

theorem setSecretExponent_invariant (ake : AKE) (x : Nat) :
    dhInvariant (setSecretExponent ake x) = true := by
  simp [dhInvariant, setSecretExponent]

theorem processEncryptedSig_fields (P : CryptoPrims) (ake : AKE)
    (e m : Bytes) (k : akeKeys) :
    (processEncryptedSig P ake e m k).1.secretExponent = ake.secretExponent ∧
    (processEncryptedSig P ake e m k).1.ourPublicValue = ake.ourPublicValue := by
  simp only [processEncryptedSig]
  split
  · simp
  · split
    · simp
    · split
      · simp
      · split
        · simp
        · split
          · simp
          · simp

theorem processRevealSig_fields (P : CryptoPrims) (ake : AKE) (msg : Bytes) :
    (processRevealSig P ake msg).1.secretExponent = ake.secretExponent ∧
    (processRevealSig P ake msg).1.ourPublicValue = ake.ourPublicValue := by
  simp only [processRevealSig]
  split
  · simp
  · split
    · simp
    · split
      · simp
      · split
        · simp
        · split
          · simp
          · split <;>
            · constructor
              · rw [(processEncryptedSig_fields P _ _ _ _).1]
                simp [calcAKEKeys]
              · rw [(processEncryptedSig_fields P _ _ _ _).2]
                simp [calcAKEKeys]

theorem processSig_fields (P : CryptoPrims) (ake : AKE) (msg : Bytes) :
    (processSig P ake msg).1.secretExponent = ake.secretExponent ∧
    (processSig P ake msg).1.ourPublicValue = ake.ourPublicValue := by
  simp only [processSig]
  split
  · simp
  · split
    · simp
    · split <;>
      · constructor
        · rw [(processEncryptedSig_fields P _ _ _ _).1]
        · rw [(processEncryptedSig_fields P _ _ _ _).2]

theorem processDHCommit_fields (ake : AKE) (msg : Bytes) :
    (processDHCommit ake msg).1.secretExponent = ake.secretExponent ∧
    (processDHCommit ake msg).1.ourPublicValue = ake.ourPublicValue := by
  simp only [processDHCommit]
  split
  · simp
  · split <;> simp

theorem processDHKey_fields (ake : AKE) (msg : Bytes) :
    (processDHKey ake msg).1.secretExponent = ake.secretExponent ∧
    (processDHKey ake msg).1.ourPublicValue = ake.ourPublicValue := by
  simp only [processDHKey]
  split
  · simp
  · split
    · simp
    · split <;> simp

theorem revealSigMessage_fields (P : CryptoPrims) (ake : AKE) :
    (revealSigMessage P ake).1.secretExponent = ake.secretExponent ∧
    (revealSigMessage P ake).1.ourPublicValue = ake.ourPublicValue := by
  simp only [revealSigMessage]
  split <;> simp [calcAKEKeys]

theorem sigMessage_fields (P : CryptoPrims) (ake : AKE) :
    (sigMessage P ake).1.secretExponent = ake.secretExponent ∧
    (sigMessage P ake).1.ourPublicValue = ake.ourPublicValue := by
  simp only [sigMessage]
  split <;> simp [calcAKEKeys]

theorem dhCommitMessage_invariant (P : CryptoPrims) (ake : AKE)
    (h : dhInvariant ake = true) :
    dhInvariant (dhCommitMessage P ake).1 = true := by
  by_cases h40 : ake.randSource.length < 40
  · simp only [dhCommitMessage, randMPI]
    rw [if_pos (by simpa using h40)]
    simp only []
    rw [dhInvariant_eq_of ake _ (by simp) (by simp)]
    exact h
  · simp only [dhCommitMessage, randMPI]
    rw [if_neg (by simpa using h40)]
    simp only []
    split
    · simp [dhInvariant, readFullFail, setSecretExponent]
    · simp [dhInvariant, setSecretExponent]

theorem dhKeyMessage_invariant (ake : AKE) (h : dhInvariant ake = true) :
    dhInvariant (dhKeyMessage ake).1 = true := by
  by_cases h40 : ake.randSource.length < 40
  · simp only [dhKeyMessage, randMPI]
    rw [if_pos (by simpa using h40)]
    simp only []
    rw [dhInvariant_eq_of ake _ (by simp) (by simp)]
    exact h
  · simp only [dhKeyMessage, randMPI]
    rw [if_neg (by simpa using h40)]
    simp only []
    exact setSecretExponent_invariant _ _

/-- Claim C8: `secretExponent` and `ourPublicValue` are both unset or both
set with `ourPublicValue = g1 ^ secretExponent mod p`; `setSecretExponent`
establishes the invariant and every AKE operation preserves it. -/
theorem dhInvariant_preserved (P : CryptoPrims) (ake : AKE) (msg : Bytes) (x : Nat)
    (h : dhInvariant ake = true) :
    dhInvariant (setSecretExponent ake x) = true ∧
    dhInvariant (dhCommitMessage P ake).1 = true ∧
    dhInvariant (dhKeyMessage ake).1 = true ∧
    dhInvariant (revealSigMessage P ake).1 = true ∧
    dhInvariant (sigMessage P ake).1 = true ∧
    dhInvariant (processDHCommit ake msg).1 = true ∧
    dhInvariant (processDHKey ake msg).1 = true ∧
    dhInvariant (processRevealSig P ake msg).1 = true ∧
    dhInvariant (processSig P ake msg).1 = true := by
  obtain ⟨h1, h2⟩ := processRevealSig_fields P ake msg
  obtain ⟨h3, h4⟩ := processSig_fields P ake msg
  obtain ⟨h5, h6⟩ := processDHCommit_fields ake msg
  obtain ⟨h7, h8⟩ := processDHKey_fields ake msg
  obtain ⟨h9, h10⟩ := revealSigMessage_fields P ake
  obtain ⟨h11, h12⟩ := sigMessage_fields P ake
  refine ⟨setSecretExponent_invariant _ _,
    dhCommitMessage_invariant P ake h,
    dhKeyMessage_invariant ake h, ?_, ?_, ?_, ?_, ?_, ?_⟩
  · rw [dhInvariant_eq_of ake _ h9 h10]; exact h
  · rw [dhInvariant_eq_of ake _ h11 h12]; exact h
  · rw [dhInvariant_eq_of ake _ h5 h6]; exact h
  · rw [dhInvariant_eq_of ake _ h7 h8]; exact h
  · rw [dhInvariant_eq_of ake _ h1 h2]; exact h
  · rw [dhInvariant_eq_of ake _ h3 h4]; exact h

/-- Witness for C8: the invariant holds in the base context and is
preserved by every operation run on it. -/
theorem dhInvariant_preserved_witness :
    dhInvariant (setSecretExponent akeBase 3) = true ∧
    dhInvariant (dhCommitMessage toyPrims akeBase).1 = true ∧
    dhInvariant (dhKeyMessage akeBase).1 = true ∧
    dhInvariant (revealSigMessage toyPrims akeBase).1 = true ∧
    dhInvariant (sigMessage toyPrims akeBase).1 = true ∧
    dhInvariant (processDHCommit akeBase []).1 = true ∧
    dhInvariant (processDHKey akeBase []).1 = true ∧
    dhInvariant (processRevealSig toyPrims akeBase []).1 = true ∧
    dhInvariant (processSig toyPrims akeBase []).1 = true :=
  dhInvariant_preserved toyPrims akeBase [] 3 (by decide)

/-! ## Claim C1 -/

/-- Claim C1: `processRevealSig` decrypts the stored `encryptedGx` with the
revealed key `r` and compares the SHA-256 digest of the plaintext against
the stored `hashedGx` before `theirPublicValue` is set or any key
derivation happens: whenever the comparison fails it returns the
commitment-mismatch error and the context (in particular
`theirPublicValue`, `ssid` and both key bundles) is exactly unchanged. -/
theorem processRevealSig_commit_mismatch (P : CryptoPrims) (ake : AKE)
    (msg : Bytes) (rsm : revealSigMsg) (dgx : Bytes)
    (hlen : ¬ msg.length < ake.headerLen)
    (hde : revealSigDeserialize (msg.drop ake.headerLen) = .ok rsm)
    (hdec : decrypt P rsm.r ake.encryptedGx = .ok dgx)
    (hne : P.sha256 dgx ≠ ake.hashedGx) :
    processRevealSig P ake msg =
      (ake, some (.msg "otr: bad commit MAC in reveal signature message")) := by
  unfold processRevealSig ensureValidMessage
  rw [if_neg hlen]
  simp only [hde, hdec]
  simp [checkDecryptedGx, constantTimeCompare, hne]

/-- A RevealSignature message body used by witnesses: DATA(16 zero bytes),
DATA(empty encrypted signature), 20 MAC bytes. -/
def msgRS : Bytes :=
  appendData [] (List.replicate 16 0) ++ appendData [] [] ++ List.replicate 20 7

/-- Witness for C1: a revealed key that decrypts the stored commitment to
a plaintext whose digest differs from the stored hash makes
`processRevealSig` abort with the commitment-mismatch error, leaving the
context unchanged. -/
theorem processRevealSig_commit_mismatch_witness :
    processRevealSig toyPrims akeBase msgRS =
      (akeBase, some (.msg "otr: bad commit MAC in reveal signature message")) :=
  processRevealSig_commit_mismatch toyPrims akeBase msgRS
    ⟨List.replicate 16 0, [], List.replicate 20 7⟩ []
    (by decide) (by decide) (by decide) (by decide)

/-! ## Claim C2 -/

/-- Claim C2: an incoming DH public value outside `[2, p-2]` is rejected
with the out-of-range error on both entry paths: `processDHKey` rejects it
directly, and the revealed-gx path of `processRevealSig` rejects it even
when the commitment hash matches, in both cases without mutating the
context. -/
theorem dhPublicValueRangeChecked (P : CryptoPrims) (ake ake2 : AKE)
    (msg msg2 : Bytes) (rsm : revealSigMsg) (dgx : Bytes) (gy gx : Nat)
    (hlen : ¬ msg.length < ake.headerLen)
    (hexa : (extractMPI (msg.drop ake.headerLen)).2 = (gy, true))
    (hrange1 : gy < g1 ∨ gy > pMinusTwo)
    (hlen2 : ¬ msg2.length < ake2.headerLen)
    (hde : revealSigDeserialize (msg2.drop ake2.headerLen) = .ok rsm)
    (hdec : decrypt P rsm.r ake2.encryptedGx = .ok dgx)
    (hhash : P.sha256 dgx = ake2.hashedGx)
    (hexb : extractMPI dgx = ([], gx, true))
    (hrange2 : gx < g1 ∨ gx > pMinusTwo) :
    processDHKey ake msg = (ake, false, some (.msg "otr: DH value out of range")) ∧
    processRevealSig P ake2 msg2 = (ake2, some (.msg "otr: DH value out of range")) := by
  constructor
  · unfold processDHKey ensureValidMessage dhKeyDeserialize
    rw [if_neg hlen]
    simp only [hexa]
    simp [hrange1]
  · unfold processRevealSig ensureValidMessage
    rw [if_neg hlen2]
    simp only [hde, hdec]
    rw [show checkDecryptedGx P dgx ake2.hashedGx = none by
      simp [checkDecryptedGx, constantTimeCompare, hhash]]
    simp only [extractGx, hexb]
    simp [hrange2]

/-- A context whose stored commitment decrypts (under the witness
primitives) to the MPI encoding of the out-of-range value 1, with a
matching commitment hash. -/
def akeRange : AKE :=
  { akeBase with encryptedGx := appendMPI [] 1,
                 hashedGx := toySha (appendMPI [] 1) }

/-- Witness for C2: the value 1 is rejected as out of range by
`processDHKey`, and by `processRevealSig` even though the commitment hash
matches. -/
theorem dhPublicValueRangeChecked_witness :
    processDHKey akeBase [0, 0, 0, 1, 1] =
      (akeBase, false, some (.msg "otr: DH value out of range")) ∧
    processRevealSig toyPrims akeRange msgRS =
      (akeRange, some (.msg "otr: DH value out of range")) :=
  dhPublicValueRangeChecked toyPrims akeBase akeRange [0, 0, 0, 1, 1] msgRS
    ⟨List.replicate 16 0, [], List.replicate 20 7⟩ (appendMPI [] 1) 1 1
    (by decide) (by decide) (by decide) (by decide) (by decide) (by decide)
    (by decide) (by decide) (by decide)

/-! ## Claim C7 -/

/-- Claim C7: every inbound message shorter than the fixed header length
is rejected by all four processing functions with `errInvalidOTRMessage`
before any body parsing, without mutating the context; and a decrypted
signature payload with trailing bytes after the embedded public key,
keyID and signature is rejected with the corrupt-encrypted-signature
error. -/
theorem headerAndTrailingRejected :
    (∀ (P : CryptoPrims) (ake : AKE) (msg : Bytes),
      msg.length < ake.headerLen →
      processDHCommit ake msg = (ake, some .invalidOTRMessage) ∧
      processDHKey ake msg = (ake, false, some .invalidOTRMessage) ∧
      processRevealSig P ake msg = (ake, some .invalidOTRMessage) ∧
      processSig P ake msg = (ake, some .invalidOTRMessage)) ∧
    (∀ (P : CryptoPrims) (ake : AKE) (enc mac : Bytes) (keys : akeKeys)
      (k : PublicKey) (np : Bytes),
      (P.hmac keys.m2 (appendData [] enc)).take 20 = mac →
      keys.c.length = 16 →
      P.parsePub (P.ctr keys.c enc) = (k, np, true) →
      44 < np.length →
      P.dsaVerify k (P.hmac keys.m1 (appendAll (ake.theirPublicValue.getD 0)
        (ake.ourPublicValue.getD 0) k (bytesToNat (np.take 4))))
        ((np.drop 4).take 40) = true →
      (processEncryptedSig P ake enc mac keys).2 = some .corruptEncryptedSignature) := by
  constructor
  · intro P ake msg h
    refine ⟨?_, ?_, ?_, ?_⟩
    · unfold processDHCommit ensureValidMessage
      rw [if_pos h]
    · unfold processDHKey ensureValidMessage
      rw [if_pos h]
    · unfold processRevealSig ensureValidMessage
      rw [if_pos h]
    · unfold processSig ensureValidMessage
      rw [if_pos h]
  · intro P ake enc mac keys k np hmac hc16 hpp hnp hver
    unfold processEncryptedSig
    rw [if_neg (by simp [← hmac, constantTimeCompare])]
    rw [show decrypt P keys.c enc = .ok (P.ctr keys.c enc) by simp [decrypt, hc16]]
    simp only [hpp]
    rw [show extractWord np = (np.drop 4, bytesToNat (np.take 4), true) by
      unfold extractWord
      rw [if_neg (by omega)]]
    simp only []
    rw [if_neg (by simp; omega)]
    rw [show pubVerify P k (P.hmac keys.m1 (appendAll (ake.theirPublicValue.getD 0)
        (ake.ourPublicValue.getD 0) k (bytesToNat (np.take 4)))) (np.drop 4) =
        ((np.drop 4).drop 40, true) by
      unfold pubVerify
      rw [if_neg (by simp [List.length_drop]; omega), hver]]
    simp only []
    rw [if_neg (by simp)]
    rw [if_pos (by simp [List.length_drop]; omega)]

/-- A context with a two-byte header, used to exercise the too-short
rejection. -/
def akeHdr : AKE := { akeBase with headerBytes := [0, 2] }

/-- The MAC tag matching the 51-byte encrypted-signature payload used in
the trailing-bytes witness. -/
def macTrail : Bytes :=
  (toyHmac (List.replicate 32 0) (appendData [] (List.replicate 51 5))).take 20

/-- Witness for C7: the empty message is shorter than a two-byte header
and is rejected by all four processors without mutation; a
correctly-MACed payload whose signature leaves four trailing bytes is
rejected as corrupt. -/
theorem headerAndTrailingRejected_witness :
    (processDHCommit akeHdr [] = (akeHdr, some .invalidOTRMessage) ∧
     processDHKey akeHdr [] = (akeHdr, false, some .invalidOTRMessage) ∧
     processRevealSig toyPrims akeHdr [] = (akeHdr, some .invalidOTRMessage) ∧
     processSig toyPrims akeHdr [] = (akeHdr, some .invalidOTRMessage)) ∧
    (processEncryptedSig toyPrims akeBase (List.replicate 51 5) macTrail
      akeBase.sigKey).2 = some .corruptEncryptedSignature :=
  ⟨headerAndTrailingRejected.1 toyPrims akeHdr [] (by decide),
   headerAndTrailingRejected.2 toyPrims akeBase (List.replicate 51 5) macTrail
     akeBase.sigKey ⟨List.replicate 3 5⟩ (List.replicate 48 5)
     (by decide) (by decide) (by decide) (by decide) (by decide)⟩

/-! ## Claim C5 (corrected) -/

/-- Counterexample to C5 as stated: a MAC-comparison failure and a
signature-verification failure surface errors with different content
("bad signature MAC in encrypted signature" versus "bad signature in
encrypted signature"), so the two failures are distinguishable. -/
theorem processEncryptedSig_error_content_differs :
    (processEncryptedSig toyPrimsReject akeBase [] [9] akeBase.sigKey).2 =
      some (.msg "bad signature MAC in encrypted signature") ∧
    (processEncryptedSig toyPrimsReject akeBase (List.replicate 51 5) macTrail
      akeBase.sigKey).2 = some (.msg "bad signature in encrypted signature") ∧
    OtrError.message (.msg "bad signature MAC in encrypted signature") ≠
      OtrError.message (.msg "bad signature in encrypted signature") :=
  ⟨by decide, by decide, by decide⟩

/-- Amended C5: the two authentication-failure branches of
`processEncryptedSig` return fixed but distinct errors — a macSig
comparison failure always yields "bad signature MAC in encrypted
signature" and a signature-verification failure always yields "bad
signature in encrypted signature" — so the error content does identify
which of the two checks failed. -/
theorem processEncryptedSig_error_distinguishes
    (P1 : CryptoPrims) (a1 : AKE) (e1 t1 : Bytes) (b1 : akeKeys)
    (P2 : CryptoPrims) (a2 : AKE) (e2 t2 : Bytes) (b2 : akeKeys)
    (kk : PublicKey) (np : Bytes)
    (hfail : (P1.hmac b1.m2 (appendData [] e1)).take 20 ≠ t1)
    (hpass : (P2.hmac b2.m2 (appendData [] e2)).take 20 = t2)
    (hc16 : b2.c.length = 16)
    (hpp : P2.parsePub (P2.ctr b2.c e2) = (kk, np, true))
    (hnp : ¬ np.length < 4)
    (hsig40 : ¬ (np.drop 4).length < 40)
    (hver : P2.dsaVerify kk (P2.hmac b2.m1 (appendAll (a2.theirPublicValue.getD 0)
      (a2.ourPublicValue.getD 0) kk (bytesToNat (np.take 4))))
      ((np.drop 4).take 40) = false) :
    (processEncryptedSig P1 a1 e1 t1 b1).2 =
      some (.msg "bad signature MAC in encrypted signature") ∧
    (processEncryptedSig P2 a2 e2 t2 b2).2 =
      some (.msg "bad signature in encrypted signature") ∧
    OtrError.msg "bad signature MAC in encrypted signature" ≠
      OtrError.msg "bad signature in encrypted signature" := by
  refine ⟨?_, ?_, by decide⟩
  · unfold processEncryptedSig
    rw [if_pos ?_]
    by_cases hl : ((P1.hmac b1.m2 (appendData [] e1)).take 20).length = t1.length
    · exact Or.inr (by simp [constantTimeCompare, hfail])
    · exact Or.inl hl
  · unfold processEncryptedSig
    rw [if_neg (by simp [← hpass, constantTimeCompare])]
    rw [show decrypt P2 b2.c e2 = .ok (P2.ctr b2.c e2) by simp [decrypt, hc16]]
    simp only [hpp]
    rw [show extractWord np = (np.drop 4, bytesToNat (np.take 4), true) by
      unfold extractWord
      rw [if_neg hnp]]
    simp only []
    rw [if_neg (by simpa using hnp)]
    rw [show pubVerify P2 kk (P2.hmac b2.m1 (appendAll (a2.theirPublicValue.getD 0)
        (a2.ourPublicValue.getD 0) kk (bytesToNat (np.take 4)))) (np.drop 4) =
        ((np.drop 4).drop 40, false) by
      unfold pubVerify
      rw [if_neg hsig40, hver]]
    simp

/-- Witness for the amended C5: concrete MAC-failing and
signature-failing inputs produce exactly the two distinct errors. -/
theorem processEncryptedSig_error_distinguishes_witness :
    (processEncryptedSig toyPrimsReject akeBase [] [8] akeBase.sigKey).2 =
      some (.msg "bad signature MAC in encrypted signature") ∧
    (processEncryptedSig toyPrimsReject akeBase (List.replicate 51 5) macTrail
      akeBase.sigKey).2 = some (.msg "bad signature in encrypted signature") ∧
    OtrError.msg "bad signature MAC in encrypted signature" ≠
      OtrError.msg "bad signature in encrypted signature" :=
  processEncryptedSig_error_distinguishes toyPrimsReject akeBase [] [8]
    akeBase.sigKey toyPrimsReject akeBase (List.replicate 51 5) macTrail
    akeBase.sigKey ⟨List.replicate 3 5⟩ (List.replicate 48 5)
    (by decide) (by decide) (by decide) (by decide) (by decide) (by decide)
    (by decide)

/-! ## Claim C10 -/

/-- Claim C10: on success `sendDHCommit` sets the AKE state to
`awaitingDHKey` and replaces the key-management context with a fresh one
in which every field except `oldMACKeys` is its zero value, with
`oldMACKeys` carried over unchanged. -/
theorem sendDHCommit_frame (P : CryptoPrims) (c : Conversation)
    (hok : isOkE (sendDHCommit P c).2 = true) :
    (sendDHCommit P c).1.akeState = .awaitingDHKey ∧
    (sendDHCommit P c).1.keys.oldMACKeys = c.keys.oldMACKeys ∧
    (sendDHCommit P c).1.keys.ourKeyID = 0 ∧
    (sendDHCommit P c).1.keys.theirKeyID = 0 ∧
    (sendDHCommit P c).1.keys.ourCurrentDHPubKey = 0 ∧
    (sendDHCommit P c).1.keys.ourPreviousDHPubKey = 0 ∧
    (sendDHCommit P c).1.keys.theirCurrentDHPubKey = 0 ∧
    (sendDHCommit P c).1.keys.ourCounter = 0 ∧
    (sendDHCommit P c).1.keys.theirCounter = 0 ∧
    (sendDHCommit P c).1.keys.macKeyHistory = [] := by
  simp only [sendDHCommit] at hok ⊢
  cases hdc : (dhCommitMessage P c.ake).2 with
  | error e =>
    rw [hdc] at hok
    simp [isOkE] at hok
  | ok m =>
    simp [wrapMessageHeader]

/-- A conversation with enough randomness to send a Commit message and a
key-management context with several non-zero fields. -/
def convW : Conversation where
  ake := { akeBase with randSource := List.replicate 56 0 }
  akeState := .stateNone
  keys := { ourKeyID := 7, theirKeyID := 9, ourCurrentDHPubKey := 4,
            ourPreviousDHPubKey := 5, theirCurrentDHPubKey := 6,
            ourCounter := 3, theirCounter := 2,
            macKeyHistory := [[4]], oldMACKeys := [[1, 2]] }

/-- Witness for C10: a successful `sendDHCommit` run moves the state to
`awaitingDHKey`, keeps `oldMACKeys`, and zeroes every other
key-management field. -/
theorem sendDHCommit_frame_witness :
    (sendDHCommit toyPrims convW).1.akeState = .awaitingDHKey ∧
    (sendDHCommit toyPrims convW).1.keys.oldMACKeys = convW.keys.oldMACKeys ∧
    (sendDHCommit toyPrims convW).1.keys.ourKeyID = 0 ∧
    (sendDHCommit toyPrims convW).1.keys.theirKeyID = 0 ∧
    (sendDHCommit toyPrims convW).1.keys.ourCurrentDHPubKey = 0 ∧
    (sendDHCommit toyPrims convW).1.keys.ourPreviousDHPubKey = 0 ∧
    (sendDHCommit toyPrims convW).1.keys.theirCurrentDHPubKey = 0 ∧
    (sendDHCommit toyPrims convW).1.keys.ourCounter = 0 ∧
    (sendDHCommit toyPrims convW).1.keys.theirCounter = 0 ∧
    (sendDHCommit toyPrims convW).1.keys.macKeyHistory = [] :=
  sendDHCommit_frame toyPrims convW (by decide)

/-! ## Claim C4: helper lemmas -/

theorem genEncSig_eq (P : CryptoPrims) (ake : AKE) (key : akeKeys) :
    generateEncryptedSignature P ake key =
      match P.sign ake.ourKey.priv (P.hmac key.m1 (appendAll
        (ake.ourPublicValue.getD 0) (ake.theirPublicValue.getD 0)
        ake.ourKey.pub ake.ourKeyID)) with
      | none => .error .shortRandomRead
      | some sigb => .ok (appendData [] (P.ctr key.c
          (appendWord ake.ourKey.pub.serialize ake.ourKeyID ++ sigb))) := by
  unfold generateEncryptedSignature calcXb
  dsimp only []
  cases h : P.sign ake.ourKey.priv (P.hmac key.m1 (appendAll
    (ake.ourPublicValue.getD 0) (ake.theirPublicValue.getD 0)
    ake.ourKey.pub ake.ourKeyID)) <;> rfl

theorem revealSig_roundtrip (header r body mac : Bytes) (h16 : r.length = 16)
    (hb : body.length < 2 ^ 32) (hm : mac.length = 32) :
    revealSigDeserialize ((serializeRevealSigMsg header r (appendData [] body)
      mac).drop header.length) = .ok ⟨r, body, mac.take 20⟩ := by
  have hser : serializeRevealSigMsg header r (appendData [] body) mac =
      header ++ (appendData [] r ++ (appendData [] body ++ mac.take 20)) := by
    simp [serializeRevealSigMsg, appendData, appendWord, List.append_assoc]
  rw [hser, List.drop_left]
  unfold revealSigDeserialize
  rw [extractData_encode r _ (by omega)]
  simp only []
  rw [extractData_encode body _ hb]
  simp only []
  rw [if_neg ?_]
  · simp [List.length_take, hm, h16]

theorem sig_roundtrip (header body mac : Bytes)
    (hb : body.length < 2 ^ 32) (hm : mac.length = 32) :
    sigDeserialize ((serializeSigMsg header (appendData [] body) mac).drop
      header.length) = .ok (body, mac.take 20) := by
  have hser : serializeSigMsg header (appendData [] body) mac =
      header ++ (appendData [] body ++ mac.take 20) := by
    simp [serializeSigMsg, List.append_assoc]
  rw [hser, List.drop_left]
  unfold sigDeserialize
  rw [extractData_encode body _ hb]
  simp only []
  rw [if_neg ?_]
  · simp [List.length_take, hm]

theorem processEncryptedSig_mac_ok (P : CryptoPrims) (recv : AKE)
    (enc : Bytes) (keys : akeKeys) :
    (processEncryptedSig P recv enc
      ((P.hmac keys.m2 (appendData [] enc)).take 20) keys).2 ≠
        some (.msg "bad signature MAC in encrypted signature") := by
  unfold processEncryptedSig
  rw [if_neg (by simp [constantTimeCompare])]
  by_cases hc : keys.c.length = 16 ∨ keys.c.length = 24 ∨ keys.c.length = 32
  · simp only [decrypt, if_pos hc]
    split
    · simp
    · split
      · intro hcontra
        simp only [Option.some.injEq, OtrError.msg.injEq] at hcontra
        exact absurd hcontra (by decide)
      · split <;> simp
  · simp only [decrypt, if_neg hc]
    simp

/-- The payload of a successful result (empty on error). -/
def okBytes : Except OtrError Bytes → Bytes
  | .ok b => b
  | .error _ => []

/-- Claim C4: for both the RevealSignature and the Signature message the
emitted `macSig` equals `mac(bundle.m2, encode(encryptedSig))` truncated
to 20 bytes (bundle `revealKey` resp. `sigKey`), it is exactly the value
the receiver recomputes in `processEncryptedSig`, and an untampered
message therefore passes the MAC check. -/
theorem macSig_matches_receiver (P : CryptoPrims) (ake : AKE)
    (hhmac : ∀ k d, (P.hmac k d).length = 32)
    (hctr : ∀ k d, (P.ctr k d).length = d.length)
    (hr16 : ake.r.length = 16)
    (hraw : ake.ourKey.pub.raw.length < 2 ^ 16)
    (hsig : ∀ m s, P.sign ake.ourKey.priv m = some s → s.length < 2 ^ 16) :
    (isOkE (revealSigMessage P ake).2 = true →
      ∃ rsm : revealSigMsg,
        revealSigDeserialize ((okBytes (revealSigMessage P ake).2).drop
          ake.headerLen) = .ok rsm ∧
        rsm.macSig = (P.hmac (revealSigMessage P ake).1.revealKey.m2
          (appendData [] rsm.encryptedSig)).take 20 ∧
        ∀ recv : AKE, (processEncryptedSig P recv rsm.encryptedSig rsm.macSig
          (revealSigMessage P ake).1.revealKey).2 ≠
            some (.msg "bad signature MAC in encrypted signature")) ∧
    (isOkE (sigMessage P ake).2 = true →
      ∃ out : Bytes × Bytes,
        sigDeserialize ((okBytes (sigMessage P ake).2).drop ake.headerLen) =
          .ok out ∧
        out.2 = (P.hmac (sigMessage P ake).1.sigKey.m2
          (appendData [] out.1)).take 20 ∧
        ∀ recv : AKE, (processEncryptedSig P recv out.1 out.2
          (sigMessage P ake).1.sigKey).2 ≠
            some (.msg "bad signature MAC in encrypted signature")) := by
  constructor
  · intro hok
    unfold revealSigMessage at hok ⊢
    dsimp only [] at hok ⊢
    rw [genEncSig_eq] at hok ⊢
    dsimp only [calcAKEKeys] at hok ⊢
    cases hs : P.sign ake.ourKey.priv
      (P.hmac (calculateAKEKeys P (calcDHSharedSecret ake)).2.1.m1
        (appendAll (ake.ourPublicValue.getD 0) (ake.theirPublicValue.getD 0)
          ake.ourKey.pub ake.ourKeyID)) with
    | none =>
      rw [hs] at hok
      simp [isOkE] at hok
    | some sigb =>
      dsimp only [okBytes]
      refine ⟨⟨ake.r,
        P.ctr (calculateAKEKeys P (calcDHSharedSecret ake)).2.1.c
          (appendWord ake.ourKey.pub.serialize ake.ourKeyID ++ sigb),
        (P.hmac (calculateAKEKeys P (calcDHSharedSecret ake)).2.1.m2
          (appendData [] (P.ctr (calculateAKEKeys P (calcDHSharedSecret ake)).2.1.c
            (appendWord ake.ourKey.pub.serialize ake.ourKeyID ++ sigb)))).take 20⟩,
        ?_, rfl, ?_⟩
      · exact revealSig_roundtrip ake.headerBytes ake.r _ _ hr16
          (by rw [hctr]
              simp [appendWord, PublicKey.serialize, word4]
              have := hsig _ _ hs
              omega)
          (hhmac _ _)
      · intro recv
        exact processEncryptedSig_mac_ok P recv _ _
  · intro hok
    unfold sigMessage at hok ⊢
    dsimp only [] at hok ⊢
    rw [genEncSig_eq] at hok ⊢
    dsimp only [calcAKEKeys] at hok ⊢
    cases hs : P.sign ake.ourKey.priv
      (P.hmac (calculateAKEKeys P (calcDHSharedSecret ake)).2.2.m1
        (appendAll (ake.ourPublicValue.getD 0) (ake.theirPublicValue.getD 0)
          ake.ourKey.pub ake.ourKeyID)) with
    | none =>
      rw [hs] at hok
      simp [isOkE] at hok
    | some sigb =>
      dsimp only [okBytes]
      refine ⟨(P.ctr (calculateAKEKeys P (calcDHSharedSecret ake)).2.2.c
          (appendWord ake.ourKey.pub.serialize ake.ourKeyID ++ sigb),
        (P.hmac (calculateAKEKeys P (calcDHSharedSecret ake)).2.2.m2
          (appendData [] (P.ctr (calculateAKEKeys P (calcDHSharedSecret ake)).2.2.c
            (appendWord ake.ourKey.pub.serialize ake.ourKeyID ++ sigb)))).take 20),
        ?_, rfl, ?_⟩
      · exact sig_roundtrip ake.headerBytes _ _
          (by rw [hctr]
              simp [appendWord, PublicKey.serialize, word4]
              have := hsig _ _ hs
              omega)
          (hhmac _ _)
      · intro recv
        exact processEncryptedSig_mac_ok P recv _ _

theorem toyHmac_len (k d : Bytes) : (toyHmac k d).length = 32 := by
  simp [toyHmac]
  omega

theorem toyCtr_len (k d : Bytes) : (toyPrims.ctr k d).length = d.length := rfl

theorem toySign_small (m s : Bytes)
    (h : toyPrims.sign akeBase.ourKey.priv m = some s) : s.length < 2 ^ 16 := by
  injection h with h2
  rw [← h2]
  decide

/-- Witness for C4: with the concrete primitives and base context, both
emitted messages deserialize back, carry exactly the 20-byte truncated
MAC the receiver recomputes, and pass the receiver MAC check. -/
theorem macSig_matches_receiver_witness :
    (∃ rsm : revealSigMsg,
      revealSigDeserialize ((okBytes (revealSigMessage toyPrims akeBase).2).drop
        akeBase.headerLen) = .ok rsm ∧
      rsm.macSig = (toyPrims.hmac (revealSigMessage toyPrims akeBase).1.revealKey.m2
        (appendData [] rsm.encryptedSig)).take 20 ∧
      ∀ recv : AKE, (processEncryptedSig toyPrims recv rsm.encryptedSig rsm.macSig
        (revealSigMessage toyPrims akeBase).1.revealKey).2 ≠
          some (.msg "bad signature MAC in encrypted signature")) ∧
    (∃ out : Bytes × Bytes,
      sigDeserialize ((okBytes (sigMessage toyPrims akeBase).2).drop
        akeBase.headerLen) = .ok out ∧
      out.2 = (toyPrims.hmac (sigMessage toyPrims akeBase).1.sigKey.m2
        (appendData [] out.1)).take 20 ∧
      ∀ recv : AKE, (processEncryptedSig toyPrims recv out.1 out.2
        (sigMessage toyPrims akeBase).1.sigKey).2 ≠
          some (.msg "bad signature MAC in encrypted signature")) :=
  ⟨(macSig_matches_receiver toyPrims akeBase toyHmac_len toyCtr_len
      (by decide) (by decide) toySign_small).1 (by rfl),
   (macSig_matches_receiver toyPrims akeBase toyHmac_len toyCtr_len
      (by decide) (by decide) toySign_small).2 (by rfl)⟩
